import Mathlib

/-!
Verification of the fan-out/fan-in cover-letter pipeline.

The development shallowly embeds the orchestration core of the repository:

* the tagged per-task result protocol (`ResponseContent` in
  `src/app/vertex_utils.py` and `src/app/utils.py`);
* the exception-propagation wrappers `SafeLlmAgent`, `SafeParallelAgent` and
  the controller `CoverLetterAgent` from `src/cover_letter_agent/safe_agents.py`;
* the per-agent wire shapes fixed by the instruction strings of the extraction
  and generation agents;
* `load_json`, `get_planner` from `src/app/utils.py` / `src/app/vertex_utils.py`;
* `process_agent_response` / `call_agent_async` from `src/utils.py`.

Machine-level parts that live in the hosted agent framework (event scheduling of
`ParallelAgent`) are modelled from the specification and marked as such in their
doc comments.
-/

namespace CoverLetterPipeline

/-- The tagged per-task result of the status protocol (spec §3 `TaskResult`,
wire shape `ResponseContent` in `src/app/vertex_utils.py:22-39`): a status
discriminator plus one message string carrying the payload on success or the
failure reason on error. -/
inductive TaskResult where
  | success (message : String)
  | error (message : String)
  deriving DecidableEq, Repr

/-- How one extraction sub-agent run can end as seen by the wrappers in
`src/cover_letter_agent/safe_agents.py`: the underlying agent run either
completes normally, leaving a status-tagged result under its output key, or a
Python exception escapes the run. -/
inductive TaskBehavior where
  | completes (r : TaskResult)
  | raisesExn (msg : String)
  deriving DecidableEq, Repr

/-- Predicate: the underlying run raises. -/
def raisesB : TaskBehavior → Bool
  | .completes _ => false
  | .raisesExn _ => true

/-- The status-tagged result of a completing run (an extraction fault that is
normalized by the agent itself arrives here as `TaskResult.error`); for a
raising run this value is never consulted by the controller. -/
def resultOf : TaskBehavior → TaskResult
  | .completes r => r
  | .raisesExn m => .error m

/-- Outcome of `SafeLlmAgent.run_live`
(`src/cover_letter_agent/safe_agents.py:12-73`). -/
inductive SafeRunResult where
  | completes (out : Option TaskResult)
  | raisesAgentError (agentName msg : String)
  deriving DecidableEq, Repr

/-- Embedding of `SafeLlmAgent.run_live` (`src/cover_letter_agent/safe_agents.py:12-73`): a
normal run is passed through unchanged; when an exception `e` escapes the
wrapped run and `output_key` is set, the wrapper raises
`AgentExecutionError(self.name, str(e))` past its own boundary (line 73); with
no output key the `except` block falls through, so the fault is swallowed and
no output is produced. -/
def safeLlmRun (name : String) (outputKey : Option String)
    (b : TaskBehavior) : SafeRunResult :=
  match b with
  | .completes r => .completes (some r)
  | .raisesExn m =>
    match outputKey with
    | some _ => .raisesAgentError name m
    | none => .completes none

/-- Agent names of the three extraction tasks, in `sub_agents` order of the
`ParallelAgent` (`src/app/cover_letter_agent/agent.py`,
`src/app/sub_agents/*/agent.py`). -/
def taskName : Fin 3 → String :=
  !["company_web_researcher", "job_information_agent", "cv_parcer_agent"]

/-- Output keys of the three extraction tasks: the `StageOutput` task
identifiers of spec §3 (`output_key` fields in `src/app/sub_agents/*/agent.py`). -/
def taskOutputKey : Fin 3 → String :=
  !["company_info", "job_role_information", "cv_info"]

/-- Whether the safe-wrapped run of extraction task `i` raises
`AgentExecutionError` (every extraction agent has its output key set). -/
def safeRunRaises (b : Fin 3 → TaskBehavior) (i : Fin 3) : Bool :=
  match safeLlmRun (taskName i) (some (taskOutputKey i)) (b i) with
  | .raisesAgentError _ _ => true
  | .completes _ => false

/-- Result of the fan-out stage as observed by the controller. -/
inductive FanOutResult where
  | completed (out : Fin 3 → TaskResult)
  | raised (agentName msg : String)

/-- Fan-out stage: the three safe-wrapped extraction agents run concurrently
under `SafeParallelAgent` (`src/cover_letter_agent/safe_agents.py:81-95`).
`sched` records the order in which the merged event stream resolves the
sub-agents; the scheduling itself is framework code, so only the propagation
contract of the source is embedded: the first sub-agent in resolution order
whose safe run raises `AgentExecutionError` aborts the join, and
`SafeParallelAgent` re-raises that error unchanged (lines 91-93); if no
sub-agent raises, every output key holds its task's status-tagged result. -/
def fanOut (sched : List (Fin 3)) (b : Fin 3 → TaskBehavior) : FanOutResult :=
  match sched.find? (safeRunRaises b) with
  | some i =>
    match safeLlmRun (taskName i) (some (taskOutputKey i)) (b i) with
    | .raisesAgentError n m => .raised n m
    | .completes _ => .completed (fun j => resultOf (b j))
  | none => .completed (fun j => resultOf (b j))

/-- Text of the controller's terminal error report
(`src/cover_letter_agent/safe_agents.py:264`). -/
def shortCircuitMsg (agentName msg : String) : String :=
  "Could not generate cover letter. Error in " ++ agentName ++ ": " ++ msg

/-- Terminal outcome of one controller invocation. -/
inductive PipelineOutcome where
  | finished (r : TaskResult)
  | errorReport (text : String)
  deriving DecidableEq, Repr

/-- One controller run: how many times the aggregation (generator) agent was
invoked, and the terminal outcome. -/
structure PipelineRun where
  aggregationInvocations : Nat
  outcome : PipelineOutcome
  deriving DecidableEq, Repr

/-- Embedding of `CoverLetterAgent.run_live` (`src/cover_letter_agent/safe_agents.py:102-271`):
run the research team; if it finishes without an exception, run the generator
and yield its events verbatim (lines 254-260); if `AgentExecutionError` is
raised, the `except` clause (lines 262-271) reports
`"Could not generate cover letter. Error in {agent}: {message}"` and the
generator is never run. The generator itself is given as a behavior on the
populated stage output; a fault escaping a safe-wrapped generator reaches the
same `except` clause as `AgentExecutionError("cl_generator_agent", msg)`. -/
def coverLetterRun (sched : List (Fin 3)) (b : Fin 3 → TaskBehavior)
    (agg : (Fin 3 → TaskResult) → TaskBehavior) : PipelineRun :=
  match fanOut sched b with
  | .raised n m => ⟨0, .errorReport (shortCircuitMsg n m)⟩
  | .completed out =>
    match agg out with
    | .completes r => ⟨1, .finished r⟩
    | .raisesExn m => ⟨1, .errorReport (shortCircuitMsg "cl_generator_agent" m)⟩

/-- Observable events of one pipeline run, used for the temporal contract of
spec §4.2/§5: start/finish of each extraction task and of the aggregation
task. -/
inductive TraceEv where
  | extStart (i : Fin 3)
  | extFinish (i : Fin 3)
  | aggStart
  | aggFinish
  deriving DecidableEq, Repr

/-- Helper for `fanOutTrace`: `seen i` counts how many steps of task `i` have
already been scheduled; a task's first scheduled step is its start, its second
its finish. -/
def fanOutTraceAux (seen : Fin 3 → Nat) : List (Fin 3) → List TraceEv
  | [] => []
  | i :: rest =>
    (if seen i = 0 then TraceEv.extStart i else TraceEv.extFinish i) ::
      fanOutTraceAux (Function.update seen i (seen i + 1)) rest

/-- Modelled from the spec: the event scheduling inside the framework's
`ParallelAgent` is not part of this repository's sources (src only constructs
the agent, `src/cover_letter_agent/agent.py:158-161` and
`src/app/cover_letter_agent/agent.py:72-78`). Spec §4.2/§5 prescribe the
missing scheduler: all three extraction tasks are started concurrently, each
runs to completion with no cancellation, and completion order is arbitrary. A
fan-out run is abstracted as the trace induced by a schedule listing each
task's two steps (start, then finish) in an arbitrary interleaving. -/
def fanOutTrace (sched : List (Fin 3)) : List TraceEv :=
  fanOutTraceAux (fun _ => 0) sched

/-- Modelled from the spec: the full pipeline trace. The sequential composition
itself is in src (`SequentialAgent` with the parallel team first, then the
generator, `src/cover_letter_agent/agent.py:165-168`): the aggregation task's
events strictly follow the whole fan-out trace. -/
def pipelineTrace (sched : List (Fin 3)) : List TraceEv :=
  fanOutTrace sched ++ [TraceEv.aggStart, TraceEv.aggFinish]

/-- The two field names of the `ResponseContent` wire shape
(`src/app/vertex_utils.py:22-39`). -/
def responseContentFields : List String := ["status", "message"]

/-- Wire rendering of a tagged result in the `ResponseContent` shape: the
`message` field holds the payload on success and the reason on error. -/
def responseContentWire : TaskResult → List (String × String)
  | .success m => [("status", "success"), ("message", m)]
  | .error m => [("status", "error"), ("message", m)]

/-- Wire shape emitted by the company researcher task, fixed by the output
format section of its instruction (`src/cover_letter_agent/agent.py:46-59`,
`src/app/sub_agents/web_researcher/agent.py:79-95`): payload under
`company_info`, failure reason under `error_message`. -/
def webResearcherWire : TaskResult → List (String × String)
  | .success info => [("status", "success"), ("company_info", info)]
  | .error m => [("status", "error"), ("error_message", m)]

/-- Wire shape emitted by the CV parsing task, fixed by its instruction
(`src/cover_letter_agent/agent.py:78-91`,
`src/app/sub_agents/cv_parcer/agent.py:80-96`): payload under `cv_info`,
failure reason under `error_message`. -/
def cvParcerWire : TaskResult → List (String × String)
  | .success info => [("status", "success"), ("cv_info", info)]
  | .error m => [("status", "error"), ("error_message", m)]

/-- Wire shape emitted by the job-role task of the app variant, fixed by the
Output section of its instruction
(`src/app/sub_agents/job_info/agent.py:133-148`): this one does use the
two-field `status`/`message` shape. -/
def jobInfoWire : TaskResult → List (String × String) := responseContentWire

/-- Wire shape emitted by the standalone-variant job description task, fixed by
its instruction (`src/cover_letter_agent/agent.py:103-117`): payload under
`job_description`, failure reason under `error_message`. -/
def jobDescriptionExtractorWire : TaskResult → List (String × String)
  | .success d => [("status", "success"), ("job_description", d)]
  | .error m => [("status", "error"), ("error_message", m)]

/-- Wire shape emitted by the aggregation task: its output schema is
`ResponseContent` (`src/app/sub_agents/cl_generator/agent.py:63-73`). -/
def clGeneratorWire : TaskResult → List (String × String) := responseContentWire

/-- Field names of a wire rendering. -/
def wireFields (w : List (String × String)) : List String := w.map Prod.fst

/-- Python exceptions that the embedded functions can raise past their
boundary. -/
inductive PyExn where
  | indexError
  | attributeError
  | valueError
  | fileNotFoundError
  deriving DecidableEq, Repr

/-- Shape of a Tavily extract response as consulted by the tool wrapper:
`failedResults` lists each failed entry's `.get("error")`, `results` each
entry's `.get("raw_content")` (either may be absent, hence `Option`). -/
structure TavilyResponse where
  failedResults : List (Option String)
  results : List (Option String)

/-- Outcome of the `tavily_client.extract` call: it either raises or returns a
response dict. -/
inductive TavilyOutcome where
  | raises (msg : String)
  | responds (resp : TavilyResponse)

/-- Embedding of the tool `extract_web_content`
(`src/app/sub_agents/job_info/agent.py:32-77`): an exception from the client
call is caught broadly and normalized to an error dict; a response with a
nonempty `failed_results` list becomes an error dict carrying the first
failure's reason; otherwise the dict `results[0]` is read, so an exception-free
response with an empty `results` list raises `IndexError` past the tool's
boundary. -/
def extract_web_content (t : TavilyOutcome) :
    Except PyExn (List (String × Option String)) :=
  match t with
  | .raises m => .ok [("status", some "error"), ("error_message", some m)]
  | .responds resp =>
    match resp.failedResults with
    | e :: _ => .ok [("status", some "error"), ("error_message", e)]
    | [] =>
      match resp.results with
      | r :: _ => .ok [("status", some "success"), ("web_content", r)]
      | [] => .error .indexError

/-- One event of an agent run stream, carrying exactly the fields
`process_agent_response` inspects (`src/utils.py:23-36`): the finality flag,
the truthiness of `event.content`, and the `text` of each content part (`none`
models a part whose text is `None`). -/
structure AgentEvent where
  isFinalResponse : Bool
  hasContent : Bool
  parts : List (Option String)

/-- Python whitespace, the set `str.strip()` removes. -/
def isPySpace (c : Char) : Bool :=
  c = ' ' || c = '\t' || c = '\n' || c = '\r' || c = '\x0b' || c = '\x0c'

/-- Embedding of Python `str.strip()`: leading and trailing whitespace
removed. -/
def pyStrip (s : String) : String :=
  String.mk (((s.toList.dropWhile isPySpace).reverse.dropWhile isPySpace).reverse)

/-- Embedding of `process_agent_response` (`src/utils.py:23-36`): when the
event is a final response with truthy content, a nonempty parts list, and a
truthy text on the last part, the stripped text is returned; in every other
case the function returns `None`. -/
def process_agent_response (e : AgentEvent) : Option String :=
  if e.isFinalResponse && e.hasContent && !e.parts.isEmpty then
    match e.parts.getLast? with
    | some (some t) => if t.isEmpty then none else some (pyStrip t)
    | _ => none
  else none

/-- One agent run stream as observed by `call_agent_async`: the events the
async iteration yields before the run either ends normally (`exn = none`) or an
exception escapes `runner.run_async` (`exn = some message`). -/
structure RunStream where
  events : List AgentEvent
  exn : Option String

/-- Loop body of `call_agent_async`: keep the last truthy processed response. -/
def finalResponseText (events : List AgentEvent) : String :=
  events.foldl
    (fun acc e =>
      match process_agent_response e with
      | some r => if r.isEmpty then acc else r
      | none => acc)
    ""

/-- Embedding of `call_agent_async` (`src/utils.py:39-76`): when the file path
does not exist, `FileNotFoundError` is raised before any agent call; otherwise
the run stream is iterated keeping the last truthy response, and an exception
escaping the stream is printed and swallowed (lines 73-74), after which the
text accumulated so far is returned, so the exception case and the normal case
return the same fold over the yielded events. -/
def call_agent_async (fileExists : Bool) (s : RunStream) : Except PyExn String :=
  if fileExists then .ok (finalResponseText s.events)
  else .error .fileNotFoundError

/-- Digit fold used by the float-literal model. -/
def digitsToNat (l : List Char) : Nat :=
  l.foldl (fun a c => a * 10 + (c.toNat - 48)) 0

/-- Value of a parsed decimal float literal, kept as the scaled integer
`mant / 10 ^ scale` so that comparisons stay kernel-evaluable; `toRat` gives
the denoted rational and `atLeast` the comparison the planner gate uses. -/
structure DecFloat where
  mant : Int
  scale : Nat
  deriving DecidableEq, Repr

/-- Rational value denoted by a `DecFloat`. -/
def DecFloat.toRat (x : DecFloat) : ℚ := (x.mant : ℚ) / (10 : ℚ) ^ x.scale

/-- Comparison `n ≤ x`, computed without leaving the integers. -/
def DecFloat.atLeast (x : DecFloat) (n : Int) : Bool :=
  decide (n * (10 : Int) ^ x.scale ≤ x.mant)

/-- Model of Python `float()` on the simple decimal literals that occur in
model-version fields: optional sign, then digits with at most one decimal
point and at least one digit. Returns `none` exactly where `float()` raises
`ValueError` on such inputs. (Exponent, `inf`/`nan` and surrounding-whitespace
forms never occur in hyphen-split model-name fields and are outside the
model.) -/
def pyFloat? (s : String) : Option DecFloat :=
  let l := s.toList
  let neg : Bool := match l with | '-' :: _ => true | _ => false
  let l2 := match l with | '-' :: r => r | '+' :: r => r | _ => l
  if l2.all (fun c => c.isDigit || c = '.') && l2.count '.' ≤ 1
      && !(l2.filter Char.isDigit).isEmpty then
    let ip := l2.takeWhile Char.isDigit
    let fp := (l2.dropWhile Char.isDigit).drop 1
    let mag : Int := (digitsToNat (ip ++ fp) : Int)
    some ⟨if neg then -mag else mag, fp.length⟩
  else none

/-- Embedding of Python `str.split("-")`: the pieces of the character list
between the separator occurrences, empty pieces included. -/
def splitDash : List Char → List (List Char)
  | [] => [[]]
  | c :: r =>
    match splitDash r with
    | [] => [[]]
    | h :: t => if c = '-' then [] :: h :: t else (c :: h) :: t

/-- Field `model.split("-")[1]`, when present. -/
def modelVersionField? (model : String) : Option String :=
  ((splitDash model.toList).map String.mk)[1]?

/-- Embedding of `BuiltInPlanner(thinking_config=ThinkingConfig(...))` as the
thinking level it is configured with. -/
structure BuiltInPlanner where
  thinkingLevel : String
  deriving DecidableEq, Repr

/-- Embedding of `get_planner` (`src/app/utils.py:148-172`): the version is
`float(md.model.split("-")[1])`, so a model name with no second
hyphen-separated field raises `IndexError` and a non-numeric field raises
`ValueError`; a planner configured with the given thinking level is returned
when the version is at least 3 and the level is one of `minimal`, `low`,
`medium`, `high`; otherwise `None`. -/
def get_planner (model : String) (thinkingLevel : String) :
    Except PyExn (Option BuiltInPlanner) :=
  match modelVersionField? model with
  | none => .error .indexError
  | some fld =>
    match pyFloat? fld with
    | none => .error .valueError
    | some v =>
      if v.atLeast 3 ∧ thinkingLevel ∈ ["minimal", "low", "medium", "high"] then
        .ok (some ⟨thinkingLevel⟩)
      else .ok none

/-- Embedding of the vertex variant `get_planner`
(`src/app/vertex_utils.py:67-90`): same version parsing, no thinking-level
argument; a planner at level `low` is returned when the version is at least 3,
otherwise `None`. -/
def get_planner_vertex (model : String) : Except PyExn (Option BuiltInPlanner) :=
  match modelVersionField? model with
  | none => .error .indexError
  | some fld =>
    match pyFloat? fld with
    | none => .error .valueError
    | some v => if v.atLeast 3 then .ok (some ⟨"low"⟩) else .ok none

/-- Status field of the dict returned by `extract_web_content`, read the way
the instruction tells the agent to check it. -/
def toolStatus (e : Except PyExn (List (String × Option String))) : Option String :=
  match e with
  | .ok (("status", some st) :: _) => some st
  | _ => none

/-- Precondition under which the Tavily response path of `extract_web_content`
is exercised without reaching the unguarded `results[0]` access: either the
client call raised, or the response carries at least one failed or successful
result entry. -/
def tavilyWellFormed : TavilyOutcome → Prop
  | .raises _ => True
  | .responds resp => resp.failedResults ≠ [] ∨ resp.results ≠ []

/-- Message carried by a tagged result (payload or reason). -/
def messageOf : TaskResult → String
  | .success m => m
  | .error m => m

/-- Python JSON values as produced by `json.loads`, in the fragment the
repository's wire strings use. Objects keep insertion order and a repeated key
updates the existing entry in place, as a Python dict does; numbers keep their
source literal (no value of the repository's protocol carries a number). -/
inductive PyJson where
  | null
  | bool (b : Bool)
  | num (lit : String)
  | str (s : String)
  | arr (elems : List PyJson)
  | obj (fields : List (String × PyJson))

/-- JSON whitespace per RFC 8259, the set `json.loads` skips. -/
def isJsonWs (c : Char) : Bool := c = ' ' || c = '\n' || c = '\r' || c = '\t'

/-- Drop leading JSON whitespace. -/
def skipWs (l : List Char) : List Char := l.dropWhile isJsonWs

/-- Value of one hex digit, when the character is one. -/
def hexDigitVal? (c : Char) : Option Nat :=
  if '0' ≤ c ∧ c ≤ '9' then some (c.toNat - 48)
  else if 'a' ≤ c ∧ c ≤ 'f' then some (c.toNat - 87)
  else if 'A' ≤ c ∧ c ≤ 'F' then some (c.toNat - 55)
  else none

/-- Character denoted by a single-letter JSON string escape. -/
def escCharVal? (c : Char) : Option Char :=
  if c = '"' then some '"'
  else if c = '\\' then some '\\'
  else if c = '/' then some '/'
  else if c = 'b' then some '\x08'
  else if c = 'f' then some '\x0c'
  else if c = 'n' then some '\n'
  else if c = 'r' then some '\r'
  else if c = 't' then some '\t'
  else none

/-- Body of a JSON string after the opening quote: returns the decoded content
and the remainder after the closing quote. Unescaped control characters are
rejected, as by `json.loads` in strict mode. A `\u` escape denoting a lone
surrogate half (which Python would accept into a non-scalar string no Lean
`String` can hold, and which no value of this protocol contains) is outside the
model and rejected. -/
def parseStringBody : List Char → Option (List Char × List Char)
  | [] => none
  | '"' :: r => some ([], r)
  | '\\' :: 'u' :: h1 :: h2 :: h3 :: h4 :: r =>
    (match hexDigitVal? h1, hexDigitVal? h2, hexDigitVal? h3, hexDigitVal? h4 with
     | some a, some b, some c, some d =>
       let n := ((a * 16 + b) * 16 + c) * 16 + d
       if n < 0xd800 ∨ 0xe000 ≤ n then
         (parseStringBody r).map (fun p => (Char.ofNat n :: p.1, p.2))
       else none
     | _, _, _, _ => none)
  | '\\' :: e :: r =>
    (match escCharVal? e with
     | some c => (parseStringBody r).map (fun p => (c :: p.1, p.2))
     | none => none)
  | '\\' :: [] => none
  | c :: r =>
    if c.toNat < 0x20 then none
    else (parseStringBody r).map (fun p => (c :: p.1, p.2))

/-- JSON number literal per the RFC grammar: consumes
`-? (0 | [1-9][0-9]*) (. [0-9]+)? ([eE][+-]?[0-9]+)?` and keeps the raw
literal. -/
def parseNumber (l : List Char) : Option (PyJson × List Char) :=
  let sgn : List Char := match l with | '-' :: _ => ['-'] | _ => []
  let l1 := match l with | '-' :: r => r | _ => l
  match l1 with
  | [] => none
  | c :: _ =>
    if !c.isDigit then none
    else
      let ip := if c = '0' then ['0'] else l1.takeWhile Char.isDigit
      let r1 := if c = '0' then l1.drop 1 else l1.dropWhile Char.isDigit
      let fDigits := match r1 with
        | '.' :: r => r.takeWhile Char.isDigit
        | _ => []
      let fPart : List Char := if fDigits = [] then [] else '.' :: fDigits
      let r2 := if fDigits = [] then r1 else (r1.drop 1).dropWhile Char.isDigit
      let eTail : Option (List Char × List Char) := match r2 with
        | 'e' :: r => some (['e'], r)
        | 'E' :: r => some (['E'], r)
        | _ => none
      let ePack : List Char × List Char := match eTail with
        | some (ec, r) =>
          let es : List Char := match r with
            | '+' :: _ => ['+']
            | '-' :: _ => ['-']
            | _ => []
          let r3 := match r with | '+' :: t => t | '-' :: t => t | _ => r
          let eDigits := r3.takeWhile Char.isDigit
          if eDigits = [] then ([], r2)
          else (ec ++ es ++ eDigits, r3.dropWhile Char.isDigit)
        | none => ([], r2)
      some (.num (String.mk (sgn ++ ip ++ fPart ++ ePack.1)), ePack.2)

/-- Insert a member into an object the way a Python dict does: a repeated key
replaces the stored value in place, a fresh key is appended. -/
def dictInsert (acc : List (String × PyJson)) (k : String) (v : PyJson) :
    List (String × PyJson) :=
  if acc.any (fun p => p.1 = k) then
    acc.map (fun p => if p.1 = k then (k, v) else p)
  else acc ++ [(k, v)]

mutual

/-- Parse one JSON value starting at the first non-whitespace character;
returns the value and the remainder. Fueled: every recursive step consumes at
least one character, so any fuel beyond the input length is enough. -/
def parseVal : Nat → List Char → Option (PyJson × List Char)
  | 0, _ => none
  | fuel + 1, l =>
    match l with
    | '\x7b' :: r =>
      (match skipWs r with
       | '\x7d' :: r2 => some (.obj [], r2)
       | r2 => parseMembers fuel r2 [])
    | '[' :: r =>
      (match skipWs r with
       | ']' :: r2 => some (.arr [], r2)
       | r2 => parseItems fuel r2 [])
    | '"' :: r => (parseStringBody r).map (fun p => (.str (String.mk p.1), p.2))
    | 't' :: 'r' :: 'u' :: 'e' :: r => some (.bool true, r)
    | 'f' :: 'a' :: 'l' :: 's' :: 'e' :: r => some (.bool false, r)
    | 'n' :: 'u' :: 'l' :: 'l' :: r => some (.null, r)
    | _ => parseNumber l

/-- Parse the members of an object after its opening brace (first member
onward), accumulating dict entries. -/
def parseMembers : Nat → List Char → List (String × PyJson) →
    Option (PyJson × List Char)
  | 0, _, _ => none
  | fuel + 1, l, acc =>
    match l with
    | '"' :: r =>
      (match parseStringBody r with
       | some (key, r2) =>
         (match skipWs r2 with
          | ':' :: r3 =>
            (match parseVal fuel (skipWs r3) with
             | some (v, r4) =>
               let acc2 := dictInsert acc (String.mk key) v
               (match skipWs r4 with
                | ',' :: r5 => parseMembers fuel (skipWs r5) acc2
                | '\x7d' :: r5 => some (.obj acc2, r5)
                | _ => none)
             | none => none)
          | _ => none)
       | none => none)
    | _ => none

/-- Parse the items of an array after its opening bracket (first item
onward). -/
def parseItems : Nat → List Char → List PyJson → Option (PyJson × List Char)
  | 0, _, _ => none
  | fuel + 1, l, acc =>
    match parseVal fuel l with
    | some (v, r) =>
      (match skipWs r with
       | ',' :: r2 => parseItems fuel (skipWs r2) (acc ++ [v])
       | ']' :: r2 => some (.arr (acc ++ [v]), r2)
       | _ => none)
    | none => none

end

/-- Embedding of `json.loads` on a whole string: one value surrounded by
optional whitespace, nothing after it. -/
def jsonParse (l : List Char) : Option PyJson :=
  match parseVal (l.length + 1) (skipWs l) with
  | some (v, rest) => if skipWs rest = [] then some v else none
  | none => none

/-- Predicate: the character is one of the two braces of the `load_json`
pattern's character class. -/
def isBrace (c : Char) : Bool := c = '\x7b' || c = '\x7d'

/-- Deterministic matcher for the regex
`r'\x7b[^\x7b\x7d]*(?:\x7b[^\x7b\x7d]*\x7d[^\x7b\x7d]*)*\x7d'` of `load_json`
(`src/app/utils.py:76`), applied just after an opening brace: a greedy run of
non-brace characters, then either the closing brace, or a complete inner
brace pair followed by a non-brace run, repeated. Because the bracketed class
cannot cross a brace, Python's backtracking engine admits exactly this
outcome at a given start position: `some m` is the text the engine matches
after the opening brace (including the final closing brace), `none` means no
match starts here. -/
def matchAfterBraceF : Nat → List Char → Option (List Char)
  | 0, _ => none
  | fuel + 1, l =>
    let a := l.takeWhile (fun c => !isBrace c)
    match l.dropWhile (fun c => !isBrace c) with
    | '\x7d' :: _ => some (a ++ ['\x7d'])
    | '\x7b' :: r2 =>
      let b := r2.takeWhile (fun c => !isBrace c)
      (match r2.dropWhile (fun c => !isBrace c) with
       | '\x7d' :: r3 =>
         (match matchAfterBraceF fuel r3 with
          | some m => some (a ++ '\x7b' :: b ++ '\x7d' :: m)
          | none => none)
       | _ => none)
    | _ => none

/-- Entry point of the matcher: every recursive step of `matchAfterBraceF`
consumes at least two characters, so fuel one beyond the input length is
enough. -/
def matchAfterBrace (l : List Char) : Option (List Char) :=
  matchAfterBraceF (l.length + 1) l

/-- Embedding of `re.search` for the `load_json` pattern: starting positions
are tried left to right; the first position holding an opening brace at which
`matchAfterBrace` succeeds yields the match. Returns the matched substring
(braces included). -/
def regexSearch : List Char → Option (List Char)
  | [] => none
  | c :: rest =>
    if c = '\x7b' then
      match matchAfterBrace rest with
      | some m => some ('\x7b' :: m)
      | none => regexSearch rest
    else regexSearch rest

/-- Embedding of `load_json` (`src/app/utils.py:73-79`, identical in
`src/app/vertex_utils.py:42-49`): the first regex match is passed to
`json.loads`; only `json.JSONDecodeError` is caught, yielding the empty dict;
when `re.search` finds no match, calling `.group(0)` on `None` raises an
uncaught `AttributeError`. -/
def load_json (s : String) : Except PyExn PyJson :=
  match regexSearch s.toList with
  | none => .error .attributeError
  | some m =>
    match jsonParse m with
    | some v => .ok v
    | none => .ok (.obj [])

/-- Lowercase hex digit character for a value below 16. -/
def hexDigitChar (n : Nat) : Char :=
  if n < 10 then Char.ofNat (48 + n) else Char.ofNat (87 + n)

/-- JSON emission of one character inside a string literal, as `json.dumps`
escapes it: quote, backslash and the named control characters get two-character
escapes, the remaining control characters get `\u00xx`, everything else stands
for itself. -/
def escChar (c : Char) : List Char :=
  if c = '"' then ['\\', '"']
  else if c = '\\' then ['\\', '\\']
  else if c = '\n' then ['\\', 'n']
  else if c = '\r' then ['\\', 'r']
  else if c = '\t' then ['\\', 't']
  else if c = '\x08' then ['\\', 'b']
  else if c = '\x0c' then ['\\', 'f']
  else if c.toNat < 0x20 then
    ['\\', 'u', '0', '0', hexDigitChar (c.toNat / 16), hexDigitChar (c.toNat % 16)]
  else [c]

/-- JSON emission of a string body. -/
def encodeBody (m : List Char) : List Char := (m.map escChar).flatten

/-- Modelled from the spec: the repository itself never serializes a
`TaskResult` — the wire strings are produced by the model under the instruction
contract — so spec §6's serialization of the two-field shape is modelled as
standard JSON emission of the object with the `status` and `message` members,
string bodies escaped as by `json.dumps`. -/
def serializeWireChars (r : TaskResult) : List Char :=
  match r with
  | .success m =>
    ("\x7b\"status\": \"success\", \"message\": \"").toList
      ++ encodeBody m.toList ++ ['"', '\x7d']
  | .error m =>
    ("\x7b\"status\": \"error\", \"message\": \"").toList
      ++ encodeBody m.toList ++ ['"', '\x7d']

/-- String form of the serialized wire shape. -/
def serializeWire (r : TaskResult) : String := String.mk (serializeWireChars r)

/-- First member of an object under a key, as Python `dict.get` reads it. -/
def lookupField (fields : List (String × PyJson)) (k : String) : Option PyJson :=
  (fields.find? (fun p => p.1 = k)).map Prod.snd

/-- Reading a wire string back along the repository's consumer path
(`src/app/main.py:82-86`): `load_json`, then the `status` and `message`
fields, rebuilt into the tagged result; anything that is not a two-field
success/error object yields no result. -/
def deserializeWire (s : String) : Option TaskResult :=
  match load_json s with
  | .error _ => none
  | .ok (.obj fields) =>
    (match lookupField fields "status", lookupField fields "message" with
     | some (.str st), some (.str m) =>
       if st = "success" then some (.success m)
       else if st = "error" then some (.error m)
       else none
     | _, _ => none)
  | .ok _ => none

theorem safeRunRaises_eq (b : Fin 3 → TaskBehavior) (i : Fin 3) :
    safeRunRaises b i = raisesB (b i) := by
  cases hb : b i <;> simp [safeRunRaises, safeLlmRun, raisesB, hb]

theorem fanOut_completed (sched : List (Fin 3)) (b : Fin 3 → TaskBehavior)
    (h : ∀ i, ∃ r, b i = TaskBehavior.completes r) :
    fanOut sched b = .completed (fun j => resultOf (b j)) := by
  have hf : sched.find? (safeRunRaises b) = none := by
    rw [List.find?_eq_none]
    intro i _
    obtain ⟨r, hr⟩ := h i
    simp [safeRunRaises, safeLlmRun, hr]
  simp [fanOut, hf]

theorem fanOut_raised (sched : List (Fin 3)) (b : Fin 3 → TaskBehavior)
    (i : Fin 3) (m : String)
    (hf : sched.find? (safeRunRaises b) = some i)
    (hb : b i = TaskBehavior.raisesExn m) :
    fanOut sched b = .raised (taskName i) m := by
  simp [fanOut, hf, safeLlmRun, hb]

/-- C2: when all three extraction tasks resolve to `Success`, the controller
invokes the aggregation task exactly once and the pipeline's terminal result is
the aggregation task's result, returned verbatim (whichever variant it is). -/
theorem run_all_success_invokes_aggregation_once_verbatim
    (sched : List (Fin 3)) (b : Fin 3 → TaskBehavior)
    (agg : (Fin 3 → TaskResult) → TaskBehavior) (r : TaskResult)
    (hsched : sched.Perm [0, 1, 2])
    (hsucc : ∀ i, ∃ p, b i = TaskBehavior.completes (TaskResult.success p))
    (hagg : agg (fun j => resultOf (b j)) = TaskBehavior.completes r) :
    coverLetterRun sched b agg = ⟨1, PipelineOutcome.finished r⟩ := by
  have h : ∀ i, ∃ q, b i = TaskBehavior.completes q :=
    fun i => (hsucc i).elim fun p hp => ⟨_, hp⟩
  simp [coverLetterRun, fanOut_completed sched b h, hagg]

/-- Witness for C2 at a concrete all-success run. -/
theorem run_all_success_invokes_aggregation_once_verbatim_witness :
    coverLetterRun [0, 1, 2]
      (fun _ => TaskBehavior.completes (TaskResult.success "payload"))
      (fun _ => TaskBehavior.completes (TaskResult.success "generated letter"))
      = ⟨1, PipelineOutcome.finished (TaskResult.success "generated letter")⟩ :=
  run_all_success_invokes_aggregation_once_verbatim _ _ _ _
    (by decide) (fun _ => ⟨"payload", rfl⟩) rfl

/-- C1 counterexample: a run in which the company-research task resolves to an
`Error` result (status `error`, without raising) still invokes the aggregation
task — its instruction, not the controller, is what reports the failure — so
the claim that aggregation is never invoked when a task resolves to `Error`
fails on this input. -/
theorem extraction_error_does_not_preclude_aggregation_cex :
    (coverLetterRun [0, 1, 2]
      (fun i => if i = 0 then TaskBehavior.completes (TaskResult.error "404 Not Found")
                else TaskBehavior.completes (TaskResult.success "payload"))
      (fun _ => TaskBehavior.completes
        (TaskResult.error "Unable to retrieve information about the company: 404 Not Found"))
      ).aggregationInvocations ≠ 0 := by decide

/-- C1 as amended: a task failure short-circuits the controller only when it
surfaces as a raised exception: in that case the aggregation task is never
invoked and the terminal result is the error report naming the first failing
task (in resolution order) and its reason — not every failing task's reason.
A task that resolves to a status-`error` result without raising does not
prevent the aggregation task from being invoked. -/
theorem run_with_failures_amended
    (sched : List (Fin 3)) (b : Fin 3 → TaskBehavior)
    (agg : (Fin 3 → TaskResult) → TaskBehavior) :
    (∀ i m, sched.find? (safeRunRaises b) = some i →
      b i = TaskBehavior.raisesExn m →
      coverLetterRun sched b agg
        = ⟨0, PipelineOutcome.errorReport (shortCircuitMsg (taskName i) m)⟩) ∧
    ((∀ j, ∃ r, b j = TaskBehavior.completes r) →
      (coverLetterRun sched b agg).aggregationInvocations = 1) := by
  constructor
  · intro i m hf hb
    simp [coverLetterRun, fanOut_raised sched b i m hf hb]
  · intro h
    simp only [coverLetterRun, fanOut_completed sched b h]
    cases agg (fun j => resultOf (b j)) <;> simp

/-- Witness for the amended C1: two tasks raise, the report names only the
first in resolution order (`boom`, not `crash`), and the generator never
runs. -/
theorem run_with_failures_amended_witness :
    coverLetterRun [0, 1, 2]
      (fun i => if i = 0 then TaskBehavior.raisesExn "boom"
                else if i = 1 then TaskBehavior.raisesExn "crash"
                else TaskBehavior.completes (TaskResult.success "cv"))
      (fun _ => TaskBehavior.completes (TaskResult.success "letter"))
      = ⟨0, PipelineOutcome.errorReport (shortCircuitMsg (taskName 0) "boom")⟩ :=
  (run_with_failures_amended _ _ _).1 0 "boom" (by decide) rfl

/-- C7: the controller's decision — invoke aggregation or short-circuit — is a
function of the task outcomes alone: two runs over identical behaviors make
the same decision whatever the resolution orders were. -/
theorem controller_decision_deterministic
    (s1 s2 : List (Fin 3)) (b : Fin 3 → TaskBehavior)
    (agg : (Fin 3 → TaskResult) → TaskBehavior)
    (h1 : s1.Perm [0, 1, 2]) (h2 : s2.Perm [0, 1, 2]) :
    (coverLetterRun s1 b agg).aggregationInvocations
      = (coverLetterRun s2 b agg).aggregationInvocations := by
  have inv : ∀ s : List (Fin 3), s.Perm [0, 1, 2] →
      (coverLetterRun s b agg).aggregationInvocations
        = if ∃ j, safeRunRaises b j then 0 else 1 := by
    intro s hs
    by_cases hex : ∃ j, safeRunRaises b j
    · obtain ⟨j, hj⟩ := hex
      have hmem : j ∈ s := hs.mem_iff.2 (by fin_cases j <;> simp)
      have hne : s.find? (safeRunRaises b) ≠ none := by
        rw [Ne, List.find?_eq_none]
        push_neg
        exact ⟨j, hmem, hj⟩
      obtain ⟨i, hi⟩ := Option.ne_none_iff_exists'.1 hne
      have hi' := List.find?_some hi
      cases hb : b i with
      | completes r => rw [safeRunRaises_eq, hb] at hi'; simp [raisesB] at hi'
      | raisesExn m =>
        simp [coverLetterRun, fanOut_raised s b i m hi hb,
          if_pos (⟨j, hj⟩ : ∃ j, safeRunRaises b j)]
    · have hall : ∀ i, ∃ r, b i = TaskBehavior.completes r := by
        intro i
        cases hb : b i with
        | completes r => exact ⟨r, rfl⟩
        | raisesExn m =>
          exact absurd ⟨i, by simp [safeRunRaises, safeLlmRun, hb]⟩ hex
      simp only [coverLetterRun, fanOut_completed s b hall, if_neg hex]
      cases agg (fun j => resultOf (b j)) <;> simp
  rw [inv s1 h1, inv s2 h2]

/-- Witness for C7 at two concrete resolution orders over the same outcomes. -/
theorem controller_decision_deterministic_witness :
    (coverLetterRun [0, 1, 2]
      (fun i => if i = 1 then TaskBehavior.raisesExn "timeout"
                else TaskBehavior.completes (TaskResult.success "ok"))
      (fun _ => TaskBehavior.completes (TaskResult.success "letter"))
      ).aggregationInvocations
    = (coverLetterRun [2, 1, 0]
      (fun i => if i = 1 then TaskBehavior.raisesExn "timeout"
                else TaskBehavior.completes (TaskResult.success "ok"))
      (fun _ => TaskBehavior.completes (TaskResult.success "letter"))
      ).aggregationInvocations :=
  controller_decision_deterministic _ _ _ _ (by decide) (by decide)

/-- C3 counterexample: the company-research task's success result is emitted
under the field `company_info`, not `message`, so the uniform two-field
`status`/`message` shape fails for it at this input. -/
theorem wire_shape_not_uniform_cex :
    wireFields (webResearcherWire (TaskResult.success "Acme Corp profile"))
      ≠ responseContentFields := by decide

/-- C3 as amended: only the aggregation task (whose output schema is
`ResponseContent`) and the app variant's job-role task honor the two-field
`status`/`message` shape; the company-research, CV-parsing and
standalone-variant job-description tasks emit `status` plus a task-named
payload field on success and `status` plus `error_message` on error. Every
shape starts with the `status` discriminator, which is the field the
aggregation gate inspects. -/
theorem wire_shapes_amended (r : TaskResult) :
    wireFields (clGeneratorWire r) = responseContentFields ∧
    wireFields (jobInfoWire r) = responseContentFields ∧
    wireFields (webResearcherWire r) =
      ["status", (match r with
                  | .success _ => "company_info"
                  | .error _ => "error_message")] ∧
    wireFields (cvParcerWire r) =
      ["status", (match r with
                  | .success _ => "cv_info"
                  | .error _ => "error_message")] ∧
    wireFields (jobDescriptionExtractorWire r) =
      ["status", (match r with
                  | .success _ => "job_description"
                  | .error _ => "error_message")] ∧
    wireFields (webResearcherWire r) ≠ responseContentFields := by
  cases r <;>
    simp [wireFields, clGeneratorWire, jobInfoWire, responseContentWire,
      webResearcherWire, cvParcerWire, jobDescriptionExtractorWire,
      responseContentFields]

/-- C4 counterexample: an unexpected fault inside a safe-wrapped extraction
task is not normalized into a `TaskResult` — `SafeLlmAgent` raises
`AgentExecutionError` past the task boundary (safe_agents.py line 73), so at
this input the task's run ends in a raise, not in a resolved result. -/
theorem task_fault_raises_past_boundary_cex :
    safeLlmRun "company_web_researcher" (some "company_info")
      (TaskBehavior.raisesExn "boom")
      = SafeRunResult.raisesAgentError "company_web_researcher" "boom" := rfl

/-- C4 as amended: the tool layer does normalize faults — `extract_web_content`
catches any client exception and always returns a status dict (for every
outcome that does not hit the unguarded `results[0]` access) — but an
unexpected fault escaping an agent run is converted by `SafeLlmAgent` into a
raised `AgentExecutionError` that aborts the fan-out join; the fault still
never crashes the pipeline, because the controller catches the typed error and
turns it into the terminal error report. -/
theorem task_fault_handling_amended :
    (∀ t : TavilyOutcome, tavilyWellFormed t →
      (extract_web_content t).isOk = true ∧
      (toolStatus (extract_web_content t) = some "error" ∨
        toolStatus (extract_web_content t) = some "success")) ∧
    (∀ (name key m : String),
      safeLlmRun name (some key) (TaskBehavior.raisesExn m)
        = SafeRunResult.raisesAgentError name m) ∧
    (∀ (sched : List (Fin 3)) (b : Fin 3 → TaskBehavior)
        (agg : (Fin 3 → TaskResult) → TaskBehavior) (i : Fin 3) (m : String),
      sched.find? (safeRunRaises b) = some i →
      b i = TaskBehavior.raisesExn m →
      (coverLetterRun sched b agg).outcome
        = PipelineOutcome.errorReport (shortCircuitMsg (taskName i) m)) := by
  refine ⟨?_, fun name key m => rfl, ?_⟩
  · intro t ht
    cases t with
    | raises m => exact ⟨rfl, Or.inl rfl⟩
    | responds resp =>
      cases hf : resp.failedResults with
      | cons e tl =>
        simp [extract_web_content, hf, toolStatus, Except.isOk, Except.toBool]
      | nil =>
        cases hr : resp.results with
        | cons r tl =>
          simp [extract_web_content, hf, hr, toolStatus, Except.isOk, Except.toBool]
        | nil =>
          exfalso
          cases ht with
          | inl h => exact h hf
          | inr h => exact h hr
  · intro sched b agg i m hf hb
    simp [coverLetterRun, fanOut_raised sched b i m hf hb]

/-- Witness for the amended C4: a raising client call yields an error dict,
and a raising agent run ends as a terminal error report of the controller. -/
theorem task_fault_handling_amended_witness :
    (extract_web_content (TavilyOutcome.raises "network down")).isOk = true ∧
    (coverLetterRun [0, 1, 2]
      (fun i => if i = 2 then TaskBehavior.raisesExn "boom"
                else TaskBehavior.completes (TaskResult.success "ok"))
      (fun _ => TaskBehavior.completes (TaskResult.success "letter"))).outcome
      = PipelineOutcome.errorReport (shortCircuitMsg (taskName 2) "boom") :=
  ⟨(task_fault_handling_amended.1 (TavilyOutcome.raises "network down") trivial).1,
    task_fault_handling_amended.2.2 [0, 1, 2] _ _ 2 "boom" (by decide) rfl⟩

theorem extFinish_mem_aux_of_seen (l : List (Fin 3)) :
    ∀ (seen : Fin 3 → Nat) (i : Fin 3), 1 ≤ seen i → i ∈ l →
      TraceEv.extFinish i ∈ fanOutTraceAux seen l := by
  induction l with
  | nil => intro seen i _ hmem; simp at hmem
  | cons j rest ih =>
    intro seen i h hmem
    by_cases hij : j = i
    · subst hij
      have h0 : ¬ seen j = 0 := by omega
      simp [fanOutTraceAux, h0]
    · rcases List.mem_cons.1 hmem with h1 | h1
      · exact absurd h1.symm hij
      · refine List.mem_cons_of_mem _ (ih _ i ?_ h1)
        have hne : i ≠ j := fun hc => hij hc.symm
        rw [Function.update_noteq hne]
        exact h

theorem extFinish_mem_aux_of_count (l : List (Fin 3)) :
    ∀ (seen : Fin 3 → Nat) (i : Fin 3), 2 ≤ l.count i →
      TraceEv.extFinish i ∈ fanOutTraceAux seen l := by
  induction l with
  | nil => intro seen i h; simp at h
  | cons j rest ih =>
    intro seen i h
    by_cases hij : j = i
    · subst hij
      by_cases h0 : seen j = 0
      · have hx : List.count j (j :: rest) = rest.count j + 1 :=
          List.count_cons_self j rest
        rw [hx] at h
        have hmem : j ∈ rest := List.count_pos_iff.1 (by omega)
        refine List.mem_cons_of_mem _ (extFinish_mem_aux_of_seen rest _ j ?_ hmem)
        rw [Function.update_same]
        omega
      · simp [fanOutTraceAux, h0]
    · have hcnt : 2 ≤ rest.count i := by
        simpa [List.count_cons, hij] using h
      exact List.mem_cons_of_mem _ (ih _ i hcnt)

theorem fanOutTraceAux_only_ext (l : List (Fin 3)) :
    ∀ (seen : Fin 3 → Nat) (e : TraceEv), e ∈ fanOutTraceAux seen l →
      e ≠ TraceEv.aggStart ∧ e ≠ TraceEv.aggFinish := by
  induction l with
  | nil => intro seen e h; simp [fanOutTraceAux] at h
  | cons j rest ih =>
    intro seen e h
    rcases List.mem_cons.1 h with h1 | h1
    · subst h1
      by_cases h0 : seen j = 0 <;> simp [h0]
    · exact ih _ e h1

/-- C5 (spec-modelled): the scheduling of the three extraction tasks lives in
the framework's `ParallelAgent`, which is not part of this repository's
sources, so the fan-out stage is modelled from spec §4.2/§5: the three tasks
run concurrently in an arbitrary interleaving and all run to completion with
no cancellation. Over every such interleaving: each task's finish event is in
the fan-out portion of the trace, and every aggregation-start event comes
strictly after every extraction-finish event — aggregation never executes
concurrently with extraction. -/
theorem fanout_runs_to_completion_before_aggregation
    (sched : List (Fin 3)) (hvalid : ∀ i, sched.count i = 2) :
    (∀ i, TraceEv.extFinish i ∈ fanOutTrace sched) ∧
    (∀ (i : Fin 3) (p q : Nat)
        (hp : p < (pipelineTrace sched).length)
        (hq : q < (pipelineTrace sched).length),
      (pipelineTrace sched).get ⟨p, hp⟩ = TraceEv.extFinish i →
      (pipelineTrace sched).get ⟨q, hq⟩ = TraceEv.aggStart → p < q) := by
  constructor
  · intro i
    exact extFinish_mem_aux_of_count sched _ i (by rw [hvalid i])
  · intro i p q hp hq hpe hqe
    have hlen : (pipelineTrace sched).length = (fanOutTrace sched).length + 2 := by
      simp [pipelineTrace]
    have hq2 : (fanOutTrace sched).length ≤ q := by
      by_contra hlt
      push_neg at hlt
      have heq : (pipelineTrace sched).get ⟨q, hq⟩ = (fanOutTrace sched).get ⟨q, hlt⟩ := by
        simp only [pipelineTrace, List.get_eq_getElem]
        exact List.getElem_append_left hlt
      rw [heq] at hqe
      have hmem : TraceEv.aggStart ∈ fanOutTrace sched := by
        rw [← hqe]
        exact List.get_mem _ _ _
      exact (fanOutTraceAux_only_ext sched _ _ hmem).1 rfl
    have hp2 : p < (fanOutTrace sched).length := by
      by_contra hge
      push_neg at hge
      have hsub : p - (fanOutTrace sched).length
          < [TraceEv.aggStart, TraceEv.aggFinish].length := by
        simp only [List.length_cons, List.length_nil]
        omega
      have heq : (pipelineTrace sched).get ⟨p, hp⟩
          = [TraceEv.aggStart, TraceEv.aggFinish].get
              ⟨p - (fanOutTrace sched).length, hsub⟩ := by
        simp only [pipelineTrace, List.get_eq_getElem]
        exact List.getElem_append_right hge
      rw [heq] at hpe
      have hmem2 : TraceEv.extFinish i ∈ [TraceEv.aggStart, TraceEv.aggFinish] := by
        rw [← hpe]
        exact List.get_mem _ _ _
      simp at hmem2
    omega

/-- Witness for C5 at a concrete interleaving of the three tasks' steps. -/
theorem fanout_runs_to_completion_before_aggregation_witness :
    TraceEv.extFinish 0 ∈ fanOutTrace [0, 1, 2, 2, 0, 1] :=
  (fanout_runs_to_completion_before_aggregation [0, 1, 2, 2, 0, 1] (by decide)).1 0

/-- C9 counterexample: when an exception interrupts the run after a final
nonempty response event was already processed, `call_agent_async` returns that
accumulated text, not the empty string, so the claim that any exception yields
the empty string fails at this input. -/
theorem exception_after_final_response_not_empty_cex :
    call_agent_async true ⟨[⟨true, true, [some "hello"]⟩], some "boom"⟩
        = Except.ok "hello" ∧
    call_agent_async true ⟨[⟨true, true, [some "hello"]⟩], some "boom"⟩
        ≠ Except.ok "" := by
  have h1 : call_agent_async true ⟨[⟨true, true, [some "hello"]⟩], some "boom"⟩
      = Except.ok "hello" := rfl
  refine ⟨h1, ?_⟩
  rw [h1]
  intro h
  exact absurd (Except.ok.inj h) (by decide)

/-- C9 as amended: `call_agent_async` swallows an exception raised during the
agent run and returns the text accumulated from the events processed before it
— the empty string exactly when no truthy final response preceded the fault —
so the caller cannot distinguish a failed run from a run whose final output was
empty (the returned value does not depend on whether an exception was raised);
`FileNotFoundError` is still raised before any agent call when the given file
path does not exist. -/
theorem call_agent_async_amended
    (events : List AgentEvent) (e1 e2 : Option String) (m : String)
    (s : RunStream) :
    call_agent_async true ⟨events, e1⟩ = call_agent_async true ⟨events, e2⟩ ∧
    call_agent_async true ⟨events, e1⟩ = Except.ok (finalResponseText events) ∧
    call_agent_async true ⟨[], some m⟩ = Except.ok "" ∧
    call_agent_async false s = Except.error PyExn.fileNotFoundError :=
  ⟨rfl, rfl, rfl, rfl⟩

theorem DecFloat.atLeast_iff (x : DecFloat) (n : Int) :
    (x.atLeast n = true) ↔ (n : ℚ) ≤ x.toRat := by
  unfold DecFloat.atLeast DecFloat.toRat
  rw [decide_eq_true_eq, le_div_iff₀ (by positivity)]
  exact_mod_cast Iff.rfl

theorem atLeast_three_iff (v : DecFloat) :
    (v.atLeast 3 = true) ↔ (3 : ℚ) ≤ v.toRat := by
  rw [DecFloat.atLeast_iff]
  norm_num

/-- C10: the planner gate parses the model version as the float value of the
second hyphen-separated field: a planner is returned exactly when that version
is at least 3 (the app variant additionally requiring a known thinking level);
versions below 3 give `None`; a model name without a second field raises
`IndexError` and a non-numeric second field raises `ValueError` instead of
returning. -/
theorem get_planner_version_gate (model lvl : String) :
    ((∃ p, get_planner model lvl = .ok (some p)) ↔
      (∃ fld v, modelVersionField? model = some fld ∧ pyFloat? fld = some v ∧
        (3 : ℚ) ≤ v.toRat ∧ lvl ∈ ["minimal", "low", "medium", "high"])) ∧
    (∀ fld v, modelVersionField? model = some fld → pyFloat? fld = some v →
      ((3 : ℚ) ≤ v.toRat → get_planner_vertex model = .ok (some ⟨"low"⟩)) ∧
      (v.toRat < 3 → get_planner model lvl = .ok none ∧
        get_planner_vertex model = .ok none)) ∧
    (modelVersionField? model = none →
      get_planner model lvl = .error .indexError ∧
      get_planner_vertex model = .error .indexError) ∧
    (∀ fld, modelVersionField? model = some fld → pyFloat? fld = none →
      get_planner model lvl = .error .valueError ∧
      get_planner_vertex model = .error .valueError) := by
  refine ⟨⟨?_, ?_⟩, ?_, ?_, ?_⟩
  · rintro ⟨p, hp⟩
    cases hs : modelVersionField? model with
    | none =>
      simp only [get_planner, hs] at hp
      exact absurd hp (by simp)
    | some fld =>
      cases hv : pyFloat? fld with
      | none =>
        simp only [get_planner, hs, hv] at hp
        exact absurd hp (by simp)
      | some v =>
        simp only [get_planner, hs, hv] at hp
        by_cases hc : (v.atLeast 3 = true) ∧ lvl ∈ ["minimal", "low", "medium", "high"]
        · exact ⟨fld, v, rfl, hv, (atLeast_three_iff v).1 hc.1, hc.2⟩
        · rw [if_neg hc] at hp
          exact absurd hp (by simp)
  · rintro ⟨fld, v, hs, hv, h3, hl⟩
    refine ⟨⟨lvl⟩, ?_⟩
    simp only [get_planner, hs, hv]
    rw [if_pos ⟨(atLeast_three_iff v).2 h3, hl⟩]
  · intro fld v hs hv
    constructor
    · intro h3
      simp only [get_planner_vertex, hs, hv]
      rw [if_pos ((atLeast_three_iff v).2 h3)]
    · intro hlt
      have hfalse : ¬ (v.atLeast 3 = true) :=
        fun h => absurd ((atLeast_three_iff v).1 h) (not_le.2 hlt)
      constructor
      · simp only [get_planner, hs, hv]
        rw [if_neg (fun hc => hfalse hc.1)]
      · simp only [get_planner_vertex, hs, hv]
        rw [if_neg hfalse]
  · intro hs
    exact ⟨by simp only [get_planner, hs], by simp only [get_planner_vertex, hs]⟩
  · intro fld hs hv
    exact ⟨by simp only [get_planner, hs, hv],
      by simp only [get_planner_vertex, hs, hv]⟩

/-- Witness for C10 at the repository's model names: a Gemini 3 name yields a
planner, a 2.5 name yields `None`, a fieldless name raises `IndexError`, and a
non-numeric field raises `ValueError`. -/
theorem get_planner_version_gate_witness :
    get_planner_vertex "gemini-3-flash-preview" = .ok (some ⟨"low"⟩) ∧
    get_planner "gemini-2.5-flash-preview-09-2025" "low" = .ok none ∧
    get_planner "gemini" "low" = .error .indexError ∧
    get_planner "gemini-flash" "low" = .error .valueError :=
  ⟨((get_planner_version_gate "gemini-3-flash-preview" "low").2.1 "3" ⟨3, 0⟩
      (by decide) (by decide)).1 (by norm_num [DecFloat.toRat]),
   (((get_planner_version_gate "gemini-2.5-flash-preview-09-2025" "low").2.1
      "2.5" ⟨25, 1⟩ (by decide) (by decide)).2
        (by norm_num [DecFloat.toRat])).1,
   ((get_planner_version_gate "gemini" "low").2.2.1 (by decide)).1,
   ((get_planner_version_gate "gemini-flash" "low").2.2.2 "flash"
      (by decide) (by decide)).1⟩

theorem matchAfterBraceF_some_mem (fuel : Nat) (l : List Char) (m : List Char)
    (h : matchAfterBraceF fuel l = some m) : '\x7d' ∈ l := by
  cases fuel with
  | zero => simp [matchAfterBraceF] at h
  | succ f =>
    simp only [matchAfterBraceF] at h
    split at h
    · rename_i heq
      exact ((List.dropWhile_suffix _).sublist.subset)
        (heq ▸ List.mem_cons_self _ _)
    · rename_i r2 heq
      split at h
      · rename_i r3 heq2
        have h1 : '\x7d' ∈ r2 :=
          ((List.dropWhile_suffix _).sublist.subset)
            (heq2 ▸ List.mem_cons_self _ _)
        have h2 : r2 ⊆ l :=
          fun x hx => ((List.dropWhile_suffix _).sublist.subset)
            (heq ▸ List.mem_cons_of_mem _ hx)
        exact h2 h1
      · exact absurd h (by simp)
    · exact absurd h (by simp)

theorem regexSearch_some_decomp (l : List Char) (m : List Char)
    (h : regexSearch l = some m) :
    ∃ l1 l2, l = l1 ++ '\x7b' :: l2 ∧ '\x7d' ∈ l2 := by
  induction l with
  | nil => simp [regexSearch] at h
  | cons c rest ih =>
    by_cases hc : c = '\x7b'
    · subst hc
      rw [regexSearch, if_pos rfl] at h
      cases hm : matchAfterBrace rest with
      | some mm =>
        exact ⟨[], rest, rfl, matchAfterBraceF_some_mem _ rest mm hm⟩
      | none =>
        rw [hm] at h
        obtain ⟨l1, l2, hdec, hmem⟩ := ih h
        exact ⟨'\x7b' :: l1, l2, by rw [hdec]; rfl, hmem⟩
    · rw [regexSearch, if_neg hc] at h
      obtain ⟨l1, l2, hdec, hmem⟩ := ih h
      exact ⟨c :: l1, l2, by rw [hdec]; rfl, hmem⟩

/-- C8 counterexample: a string that does contain a brace-delimited substring
failing JSON parsing (`\x7ba\x7d`) on which `load_json` nevertheless returns the
parsed dict of the earlier, well-formed match — not the empty dict — so the
claim's first universal fails at this input. -/
theorem load_json_failing_substring_cex :
    load_json "\x7b\"k\": \"v\"\x7d \x7ba\x7d"
        = Except.ok (PyJson.obj [("k", PyJson.str "v")]) ∧
    ("\x7b\"k\": \"v\"\x7d \x7ba\x7d").toList
        = ("\x7b\"k\": \"v\"\x7d ").toList ++ ('\x7b' :: 'a' :: '\x7d' :: []) ∧
    jsonParse ('\x7b' :: 'a' :: '\x7d' :: []) = none ∧
    PyJson.obj [("k", PyJson.str "v")] ≠ PyJson.obj [] := by
  refine ⟨rfl, rfl, rfl, ?_⟩
  simp

/-- C8 as amended: `load_json` is not total, but the empty-dict case is keyed
to the substring the regex actually extracts, not to any failing brace-delimited
substring: when the first regex match fails JSON parsing the result is the
empty dict, and when the input has no opening brace later followed by a closing
brace, `re.search` returns `None` and the unguarded `.group(0)` raises an
uncaught `AttributeError` (only `json.JSONDecodeError` is caught). -/
theorem load_json_totality_amended :
    (∀ (s : String) (m : List Char), regexSearch s.toList = some m →
      jsonParse m = none → load_json s = .ok (PyJson.obj [])) ∧
    (∀ s : String, (¬ ∃ l1 l2, s.toList = l1 ++ '\x7b' :: l2 ∧ '\x7d' ∈ l2) →
      load_json s = .error PyExn.attributeError) := by
  constructor
  · intro s m hm hp
    simp only [String.toList] at hm
    simp [load_json, hm, hp]
  · intro s hno
    cases hr : regexSearch s.toList with
    | none =>
      simp only [String.toList] at hr
      simp [load_json, hr]
    | some m => exact absurd (regexSearch_some_decomp _ _ hr) hno

/-- Witness for the amended C8: a failing extracted match yields the empty
dict, and a brace-free string hits the `AttributeError` path. -/
theorem load_json_totality_amended_witness :
    load_json "x \x7ba\x7d y" = Except.ok (PyJson.obj []) ∧
    load_json "no braces here" = Except.error PyExn.attributeError :=
  ⟨load_json_totality_amended.1 "x \x7ba\x7d y" ('\x7b' :: 'a' :: '\x7d' :: [])
      rfl rfl,
   load_json_totality_amended.2 "no braces here"
     (fun hex =>
       absurd
         (by
           obtain ⟨l1, l2, hd, _⟩ := hex
           rw [hd]
           exact List.mem_append_right l1 (List.mem_cons_self _ _) :
           '\x7b' ∈ ("no braces here").toList)
         (by decide))⟩

theorem takeWhile_append_of_all (p : Char → Bool) (l1 : List Char) (c0 : Char)
    (l2 : List Char) (h1 : ∀ x ∈ l1, p x = true) (hc : p c0 = false) :
    (l1 ++ c0 :: l2).takeWhile p = l1 ∧ (l1 ++ c0 :: l2).dropWhile p = c0 :: l2 := by
  induction l1 with
  | nil => simp [List.takeWhile_cons, List.dropWhile_cons, hc]
  | cons a t ih =>
    have ha : p a = true := h1 a (List.mem_cons_self _ _)
    have ih2 := ih fun x hx => h1 x (List.mem_cons_of_mem _ hx)
    simp [List.takeWhile_cons, List.dropWhile_cons, ha, ih2.1, ih2.2]

theorem hexDigitChar_not_brace (n : Nat) (h : n < 16) :
    isBrace (hexDigitChar n) = false := by
  interval_cases n <;> rfl

theorem escChar_not_brace (c : Char) (hc : isBrace c = false) :
    ∀ x ∈ escChar c, isBrace x = false := by
  intro x hx
  unfold escChar at hx
  split_ifs at hx with h1 h2 h3 h4 h5 h6 h7 h8 <;>
    simp only [List.mem_cons, List.not_mem_nil, or_false] at hx
  · rcases hx with rfl | rfl
    · rfl
    · rfl
  · rcases hx with rfl | rfl
    · rfl
    · rfl
  · rcases hx with rfl | rfl
    · rfl
    · rfl
  · rcases hx with rfl | rfl
    · rfl
    · rfl
  · rcases hx with rfl | rfl
    · rfl
    · rfl
  · rcases hx with rfl | rfl
    · rfl
    · rfl
  · rcases hx with rfl | rfl
    · rfl
    · rfl
  · rcases hx with rfl | rfl | rfl | rfl | rfl | rfl
    · rfl
    · rfl
    · rfl
    · rfl
    · exact hexDigitChar_not_brace _ (by omega)
    · exact hexDigitChar_not_brace _ (by omega)
  · subst hx
    exact hc

theorem encodeBody_not_brace (m : List Char) (hm : ∀ c ∈ m, isBrace c = false) :
    ∀ x ∈ encodeBody m, isBrace x = false := by
  intro x hx
  simp only [encodeBody, List.mem_flatten, List.mem_map] at hx
  obtain ⟨l, ⟨c, hcm, rfl⟩, hxl⟩ := hx
  exact escChar_not_brace c (hm c hcm) x hxl

theorem hexDigitVal_hexDigitChar (n : Nat) (h : n < 16) :
    hexDigitVal? (hexDigitChar n) = some n := by
  interval_cases n <;> rfl

theorem parseStringBody_encodeBody (m rest : List Char) :
    parseStringBody (encodeBody m ++ '"' :: rest) = some (m, rest) := by
  induction m with
  | nil => rfl
  | cons c t ih =>
    have hsplit : encodeBody (c :: t) ++ '"' :: rest
        = escChar c ++ (encodeBody t ++ '"' :: rest) := by
      simp [encodeBody]
    rw [hsplit]
    by_cases h1 : c = '"'
    · subst h1
      simp [escChar, parseStringBody, escCharVal?, ih]
    by_cases h2 : c = '\\'
    · subst h2
      simp [escChar, h1, parseStringBody, escCharVal?, ih]
    by_cases h3 : c = '\n'
    · subst h3
      simp [escChar, h1, h2, parseStringBody, escCharVal?, ih]
    by_cases h4 : c = '\r'
    · subst h4
      simp [escChar, h1, h2, h3, parseStringBody, escCharVal?, ih]
    by_cases h5 : c = '\t'
    · subst h5
      simp [escChar, h1, h2, h3, h4, parseStringBody, escCharVal?, ih]
    by_cases h6 : c = '\x08'
    · subst h6
      simp [escChar, h1, h2, h3, h4, h5, parseStringBody, escCharVal?, ih]
    by_cases h7 : c = '\x0c'
    · subst h7
      simp [escChar, h1, h2, h3, h4, h5, h6, parseStringBody, escCharVal?, ih]
    by_cases h8 : c.toNat < 0x20
    · have hesc : escChar c = ['\\', 'u', '0', '0',
          hexDigitChar (c.toNat / 16), hexDigitChar (c.toNat % 16)] := by
        simp [escChar, h1, h2, h3, h4, h5, h6, h7, h8]
      rw [hesc]
      have hd1 := hexDigitVal_hexDigitChar (c.toNat / 16) (by omega)
      have hd2 := hexDigitVal_hexDigitChar (c.toNat % 16) (by omega)
      have h0 : hexDigitVal? '0' = some 0 := rfl
      simp only [parseStringBody, h0, hd1, hd2]
      have hn : ((0 * 16 + 0) * 16 + c.toNat / 16) * 16 + c.toNat % 16 = c.toNat := by
        omega
      rw [hn, if_pos (Or.inl (by omega)), Char.ofNat_toNat]
      simp [ih]
    · have hesc : escChar c = [c] := by
        simp [escChar, h1, h2, h3, h4, h5, h6, h7, h8]
      rw [hesc]
      simp [parseStringBody, h1, h2, h8, ih]

set_option maxHeartbeats 2000000 in
theorem parseVal_wire_success (m0 : String) (k : Nat) :
    parseVal (k + 4) (serializeWireChars (TaskResult.success m0))
      = some (PyJson.obj [("status", PyJson.str "success"),
          ("message", PyJson.str m0)], []) := by
  show parseVal (k + 3 + 1)
      ('\x7b' :: '"' :: 's' :: 't' :: 'a' :: 't' :: 'u' :: 's' :: '"' :: ':' :: ' ' ::
        '"' :: 's' :: 'u' :: 'c' :: 'c' :: 'e' :: 's' :: 's' :: '"' :: ',' :: ' ' ::
        '"' :: 'm' :: 'e' :: 's' :: 's' :: 'a' :: 'g' :: 'e' :: '"' :: ':' :: ' ' ::
        '"' :: (encodeBody m0.toList ++ '"' :: '\x7d' :: []))
      = some (PyJson.obj [("status", PyJson.str "success"),
          ("message", PyJson.str m0)], [])
  simp [parseVal, parseMembers, parseStringBody, parseStringBody_encodeBody,
    skipWs, isJsonWs, escCharVal?, dictInsert]

set_option maxHeartbeats 2000000 in
theorem parseVal_wire_error (m0 : String) (k : Nat) :
    parseVal (k + 4) (serializeWireChars (TaskResult.error m0))
      = some (PyJson.obj [("status", PyJson.str "error"),
          ("message", PyJson.str m0)], []) := by
  show parseVal (k + 3 + 1)
      ('\x7b' :: '"' :: 's' :: 't' :: 'a' :: 't' :: 'u' :: 's' :: '"' :: ':' :: ' ' ::
        '"' :: 'e' :: 'r' :: 'r' :: 'o' :: 'r' :: '"' :: ',' :: ' ' ::
        '"' :: 'm' :: 'e' :: 's' :: 's' :: 'a' :: 'g' :: 'e' :: '"' :: ':' :: ' ' ::
        '"' :: (encodeBody m0.toList ++ '"' :: '\x7d' :: []))
      = some (PyJson.obj [("status", PyJson.str "error"),
          ("message", PyJson.str m0)], [])
  simp [parseVal, parseMembers, parseStringBody, parseStringBody_encodeBody,
    skipWs, isJsonWs, escCharVal?, dictInsert]

theorem regexSearch_wire (mid : List Char) (hmid : ∀ x ∈ mid, isBrace x = false) :
    regexSearch ('\x7b' :: (mid ++ ['\x7d']))
      = some ('\x7b' :: (mid ++ ['\x7d'])) := by
  have htd := takeWhile_append_of_all (fun c => !isBrace c) mid '\x7d' []
    (fun x hx => by simp [hmid x hx]) (by rfl)
  have hm : matchAfterBrace (mid ++ ['\x7d']) = some (mid ++ ['\x7d']) := by
    unfold matchAfterBrace
    simp only [matchAfterBraceF, htd.1, htd.2]
  rw [regexSearch, if_pos rfl, hm]

theorem deserializeWire_serializeWire_success (m0 : String)
    (hbf : ∀ c ∈ m0.toList, isBrace c = false) :
    deserializeWire (serializeWire (TaskResult.success m0))
      = some (TaskResult.success m0) := by
  have htail : ∀ x ∈ ['"', 's', 't', 'a', 't', 'u', 's', '"', ':', ' ', '"', 's',
      'u', 'c', 'c', 'e', 's', 's', '"', ',', ' ', '"', 'm', 'e', 's', 's', 'a',
      'g', 'e', '"', ':', ' ', '"'], isBrace x = false := by decide
  have hmid : ∀ x ∈ (['"', 's', 't', 'a', 't', 'u', 's', '"', ':', ' ', '"', 's',
      'u', 'c', 'c', 'e', 's', 's', '"', ',', ' ', '"', 'm', 'e', 's', 's', 'a',
      'g', 'e', '"', ':', ' ', '"'] ++ (encodeBody m0.toList ++ ['"'])),
      isBrace x = false := by
    intro x hx
    rcases List.mem_append.1 hx with h | h
    · exact htail x h
    · rcases List.mem_append.1 h with h2 | h2
      · exact encodeBody_not_brace _ hbf x h2
      · simp only [List.mem_cons, List.not_mem_nil, or_false] at h2
        subst h2
        rfl
  have hform : serializeWireChars (TaskResult.success m0)
      = '\x7b' :: ((['"', 's', 't', 'a', 't', 'u', 's', '"', ':', ' ', '"', 's',
        'u', 'c', 'c', 'e', 's', 's', '"', ',', ' ', '"', 'm', 'e', 's', 's', 'a',
        'g', 'e', '"', ':', ' ', '"'] ++ (encodeBody m0.toList ++ ['"']))
        ++ ['\x7d']) := by
    show ('\x7b' :: '"' :: 's' :: 't' :: 'a' :: 't' :: 'u' :: 's' :: '"' :: ':' ::
        ' ' :: '"' :: 's' :: 'u' :: 'c' :: 'c' :: 'e' :: 's' :: 's' :: '"' :: ',' ::
        ' ' :: '"' :: 'm' :: 'e' :: 's' :: 's' :: 'a' :: 'g' :: 'e' :: '"' :: ':' ::
        ' ' :: '"' :: (encodeBody m0.toList ++ '"' :: '\x7d' :: [])) = _
    simp [List.append_assoc]
  have hsearch : regexSearch (serializeWireChars (TaskResult.success m0))
      = some (serializeWireChars (TaskResult.success m0)) := by
    rw [hform]
    exact regexSearch_wire _ hmid
  have hlen : 3 ≤ (serializeWireChars (TaskResult.success m0)).length := by
    rw [hform]
    simp
  have hskip : skipWs (serializeWireChars (TaskResult.success m0))
      = serializeWireChars (TaskResult.success m0) := by
    rw [hform]
    simp [skipWs, isJsonWs]
  have hjson : jsonParse (serializeWireChars (TaskResult.success m0))
      = some (PyJson.obj [("status", PyJson.str "success"),
          ("message", PyJson.str m0)]) := by
    unfold jsonParse
    rw [hskip]
    have hfuel : (serializeWireChars (TaskResult.success m0)).length + 1
        = ((serializeWireChars (TaskResult.success m0)).length - 3) + 4 := by
      omega
    rw [hfuel, parseVal_wire_success]
    rfl
  have hload : load_json (serializeWire (TaskResult.success m0))
      = Except.ok (PyJson.obj [("status", PyJson.str "success"),
          ("message", PyJson.str m0)]) := by
    unfold load_json serializeWire
    have hl : (String.mk (serializeWireChars (TaskResult.success m0))).toList
        = serializeWireChars (TaskResult.success m0) := rfl
    rw [hl]
    simp only [hsearch, hjson]
  unfold deserializeWire
  rw [hload]
  rfl

theorem deserializeWire_serializeWire_error (m0 : String)
    (hbf : ∀ c ∈ m0.toList, isBrace c = false) :
    deserializeWire (serializeWire (TaskResult.error m0))
      = some (TaskResult.error m0) := by
  have htail : ∀ x ∈ ['"', 's', 't', 'a', 't', 'u', 's', '"', ':', ' ', '"', 'e',
      'r', 'r', 'o', 'r', '"', ',', ' ', '"', 'm', 'e', 's', 's', 'a',
      'g', 'e', '"', ':', ' ', '"'], isBrace x = false := by decide
  have hmid : ∀ x ∈ (['"', 's', 't', 'a', 't', 'u', 's', '"', ':', ' ', '"', 'e',
      'r', 'r', 'o', 'r', '"', ',', ' ', '"', 'm', 'e', 's', 's', 'a',
      'g', 'e', '"', ':', ' ', '"'] ++ (encodeBody m0.toList ++ ['"'])),
      isBrace x = false := by
    intro x hx
    rcases List.mem_append.1 hx with h | h
    · exact htail x h
    · rcases List.mem_append.1 h with h2 | h2
      · exact encodeBody_not_brace _ hbf x h2
      · simp only [List.mem_cons, List.not_mem_nil, or_false] at h2
        subst h2
        rfl
  have hform : serializeWireChars (TaskResult.error m0)
      = '\x7b' :: ((['"', 's', 't', 'a', 't', 'u', 's', '"', ':', ' ', '"', 'e',
        'r', 'r', 'o', 'r', '"', ',', ' ', '"', 'm', 'e', 's', 's', 'a',
        'g', 'e', '"', ':', ' ', '"'] ++ (encodeBody m0.toList ++ ['"']))
        ++ ['\x7d']) := by
    show ('\x7b' :: '"' :: 's' :: 't' :: 'a' :: 't' :: 'u' :: 's' :: '"' :: ':' ::
        ' ' :: '"' :: 'e' :: 'r' :: 'r' :: 'o' :: 'r' :: '"' :: ',' ::
        ' ' :: '"' :: 'm' :: 'e' :: 's' :: 's' :: 'a' :: 'g' :: 'e' :: '"' :: ':' ::
        ' ' :: '"' :: (encodeBody m0.toList ++ '"' :: '\x7d' :: [])) = _
    simp [List.append_assoc]
  have hsearch : regexSearch (serializeWireChars (TaskResult.error m0))
      = some (serializeWireChars (TaskResult.error m0)) := by
    rw [hform]
    exact regexSearch_wire _ hmid
  have hlen : 3 ≤ (serializeWireChars (TaskResult.error m0)).length := by
    rw [hform]
    simp
  have hskip : skipWs (serializeWireChars (TaskResult.error m0))
      = serializeWireChars (TaskResult.error m0) := by
    rw [hform]
    simp [skipWs, isJsonWs]
  have hjson : jsonParse (serializeWireChars (TaskResult.error m0))
      = some (PyJson.obj [("status", PyJson.str "error"),
          ("message", PyJson.str m0)]) := by
    unfold jsonParse
    rw [hskip]
    have hfuel : (serializeWireChars (TaskResult.error m0)).length + 1
        = ((serializeWireChars (TaskResult.error m0)).length - 3) + 4 := by
      omega
    rw [hfuel, parseVal_wire_error]
    rfl
  have hload : load_json (serializeWire (TaskResult.error m0))
      = Except.ok (PyJson.obj [("status", PyJson.str "error"),
          ("message", PyJson.str m0)]) := by
    unfold load_json serializeWire
    have hl : (String.mk (serializeWireChars (TaskResult.error m0))).toList
        = serializeWireChars (TaskResult.error m0) := rfl
    rw [hl]
    simp only [hsearch, hjson]
  unfold deserializeWire
  rw [hload]
  rfl

/-- C6 counterexample: a payload consisting of a single opening brace survives
JSON serialization (braces need no escaping) but defeats the deserialization
path: the brace-counting regex of `load_json` extracts a mangled fragment that
fails JSON parsing, so the round trip loses the value at this input. -/
theorem wire_roundtrip_brace_cex :
    deserializeWire (serializeWire (TaskResult.success "\x7b")) = none ∧
    (none : Option TaskResult) ≠ some (TaskResult.success "\x7b") := by
  exact ⟨rfl, by decide⟩

/-- C6 as amended: the two-field wire shape round-trips without loss — embedded
quotes, newlines and other control characters included, since those are escaped
— for every result whose message contains no brace character; an unescaped
brace in the message can derail the regex extraction step of the repository's
reader (`load_json`), which is not a full JSON parser. -/
theorem wire_roundtrip_amended (r : TaskResult)
    (hbf : ∀ c ∈ (messageOf r).toList, isBrace c = false) :
    deserializeWire (serializeWire r) = some r := by
  cases r with
  | success m0 => exact deserializeWire_serializeWire_success m0 hbf
  | error m0 => exact deserializeWire_serializeWire_error m0 hbf

/-- Witness for the amended C6 at a payload with embedded quotes and a
newline. -/
theorem wire_roundtrip_amended_witness :
    deserializeWire (serializeWire (TaskResult.success "hi\nthere \"q\""))
      = some (TaskResult.success "hi\nthere \"q\"") :=
  wire_roundtrip_amended (TaskResult.success "hi\nthere \"q\"") (by decide)

end CoverLetterPipeline
